import Mathlib

/-!
Shallow embedding of the download-job orchestration core of
`src/backend/routes/downloader.js` (modern-youtube-downloader).

The embedded pieces are:
* the progress-line recognizer used on each stdout chunk, i.e. the JS regex
  `/\[download\]\s+(\d+\.\d+)%.*?\s(\d+\.\d+\w+\/s)\sETA\s([\d:]+)/`
  applied with leftmost-match search and JS backtracking priorities
  (lazy dot-star tries shortest first; every greedy sub-pattern of this
  particular regex is forced, as argued at each definition);
* the `runYtDlp` event handlers: the initial `starting` snapshot, the
  stdout data handler, the spawn `error` handler and the `close` handler;
* the in-memory progress store (`progressMap`) with its `set`/`get` and the
  `/download/progress/:id` route;
* the argument planners of the `/download/video` and `/download/playlist`
  routes, including the `mkdirSync` of the playlist folder.
-/

namespace YtDl

/-! ### JS character classes (as used by the regex engine) -/

/-- JS regex `\s` (whitespace) character class. -/
def isJsSpace (c : Char) : Bool :=
  c = ' ' || c = '\t' || c = '\n' || c = '\r' ||
  c.toNat = 0x0b || c.toNat = 0x0c || c.toNat = 0xa0 || c.toNat = 0x1680 ||
  (0x2000 ≤ c.toNat && c.toNat ≤ 0x200a) ||
  c.toNat = 0x2028 || c.toNat = 0x2029 || c.toNat = 0x202f ||
  c.toNat = 0x205f || c.toNat = 0x3000 || c.toNat = 0xfeff

/-- JS regex `\w` (word) character class: ASCII alphanumerics and underscore. -/
def isWordChar (c : Char) : Bool :=
  c.isAlphanum || c = '_'

/-- JS regex `.` without the `s` flag: any character except line terminators. -/
def isDotChar (c : Char) : Bool :=
  !(c = '\n' || c = '\r' || c.toNat = 0x2028 || c.toNat = 0x2029)

/-- The character class `[\d:]` of the ETA capture group. -/
def isEtaChar (c : Char) : Bool :=
  c.isDigit || c = ':'

/-! ### Deterministic building blocks of the regex match -/

/-- Consume an exact literal; return the remaining input on success. -/
def dropLit : List Char → List Char → Option (List Char)
  | [], l => some l
  | _ :: _, [] => none
  | p :: ps, c :: cs => if c = p then dropLit ps cs else none

/-- Consume a maximal nonempty run of characters satisfying `p`
(greedy `X+` whose continuation cannot start with an `X` character). -/
def span1 (p : Char → Bool) (l : List Char) : Option (List Char × List Char) :=
  let t := l.takeWhile p
  if t = [] then none else some (t, l.dropWhile p)

/-- Consume one `\s` character. -/
def dropOneSpace : List Char → Option (List Char)
  | [] => none
  | c :: cs => if isJsSpace c then some cs else none

/-- Match the capture group `(\d+\.\d+\w+\/s)` anchored at the input,
returning the captured characters and the remaining input.

All backtracking of this group is forced: the first `\d+` must end at the
`.` (shorter runs leave a digit, and a digit is not `.`), and the
`\d+\w+` region between `.` and `/s` always ends exactly at the end of the
contiguous word-character run after the `.` (a `/` is not a word character),
which requires that run to have length at least 2 so that both `\d+` and
`\w+` are nonempty, with its first character a digit. -/
def matchSpeed (l : List Char) : Option (List Char × List Char) := do
  let (d1, r1) ← span1 Char.isDigit l
  let r2 ← dropLit ['.'] r1
  let (d2, r3) ← span1 Char.isDigit r2
  let w := r3.takeWhile isWordChar
  let r4 := r3.dropWhile isWordChar
  if w = [] && d2.length < 2 then none
  else do
    let r5 ← dropLit ['/', 's'] r4
    some (d1 ++ '.' :: d2 ++ w ++ ['/', 's'], r5)

/-- Match the tail `\s(\d+\.\d+\w+\/s)\sETA\s([\d:]+)` anchored at the
input, returning the speed and ETA captures. -/
def matchTail (l : List Char) : Option (List Char × List Char) := do
  let r1 ← dropOneSpace l
  let (sp, r2) ← matchSpeed r1
  let r3 ← dropOneSpace r2
  let r4 ← dropLit ['E', 'T', 'A'] r3
  let r5 ← dropOneSpace r4
  let (eta, _) ← span1 isEtaChar r5
  some (sp, eta)

/-- The lazy `.*?` before the tail: try the tail at the current position
first (shortest match wins), then let `.` consume one more character. -/
def findTail : List Char → Option (List Char × List Char)
  | [] => none
  | c :: rest =>
    match matchTail (c :: rest) with
    | some r => some r
    | none => if isDotChar c then findTail rest else none

/-- Attempt the whole regex anchored at the input: literal `[download]`,
then `\s+`, then the percent capture `(\d+\.\d+)`, then `%`, then the lazy
tail. Returns (percent integer digits, percent fraction digits, speed
capture, ETA capture). -/
def matchAt (l : List Char) : Option (List Char × List Char × List Char × List Char) := do
  let r1 ← dropLit "[download]".data l
  let (_, r2) ← span1 isJsSpace r1
  let (d1, r3) ← span1 Char.isDigit r2
  let r4 ← dropLit ['.'] r3
  let (d2, r5) ← span1 Char.isDigit r4
  let r6 ← dropLit ['%'] r5
  let (sp, eta) ← findTail r6
  some (d1, d2, sp, eta)

/-- Leftmost-match search, as performed by `String.prototype.match`. -/
def searchMatch : List Char → Option (List Char × List Char × List Char × List Char)
  | [] => none
  | c :: rest =>
    match matchAt (c :: rest) with
    | some r => some r
    | none => searchMatch rest

/-! ### From captures to the stored progress update -/

/-- Numeric value of a run of decimal digit characters. -/
def natOfDigits (l : List Char) : ℕ :=
  l.foldl (fun a c => a * 10 + (c.toNat - 48)) 0

/-- JS `Number` applied to the percent capture `d1.d2`. -/
def ratOfParts (d1 d2 : List Char) : ℚ :=
  (natOfDigits d1 : ℚ) + (natOfDigits d2 : ℚ) / (10 ^ d2.length)

/-- The structured update produced from one recognized stdout line. -/
structure ProgressUpdate where
  percent : ℚ
  speed : String
  eta : String
  deriving DecidableEq, Repr

/-- The whole stdout-chunk recognizer: regex search plus `Number(match[1])`,
`match[2]`, `match[3]`. Yields `none` for chunks the regex does not match. -/
def parseLine (line : String) : Option ProgressUpdate :=
  match searchMatch line.data with
  | some (d1, d2, sp, eta) => some ⟨ratOfParts d1 d2, String.mk sp, String.mk eta⟩
  | none => none

/-! ### Progress snapshots and the `runYtDlp` event handlers -/

/-- The `status` field of a stored snapshot. -/
inductive Status where
  | starting
  | downloading
  | completed
  | error
  deriving DecidableEq, Repr

/-- One entry of the in-memory progress store. A JS field that is absent or
`null` in the stored object is modelled as `none`. -/
structure ProgressSnapshot where
  status : Status
  percent : Option ℚ
  speed : Option String
  eta : Option String
  errorMessage : Option String
  deriving DecidableEq, Repr

/-- The snapshot written when `runYtDlp` is invoked:
`{ status: 'starting', percent: 0, speed: null, eta: null }`. -/
def initialSnapshot : ProgressSnapshot :=
  ⟨Status.starting, some 0, none, none, none⟩

/-- The snapshot written by the stdout handler on a recognized line. -/
def downloadingSnapshot (u : ProgressUpdate) : ProgressSnapshot :=
  ⟨Status.downloading, some u.percent, some u.speed, some u.eta, none⟩

/-- The snapshot written by the `close` handler on success:
`{ status: 'completed', percent: 100 }`. -/
def completedSnapshot : ProgressSnapshot :=
  ⟨Status.completed, some 100, none, none, none⟩

/-- The snapshot written on failure: `{ status: 'error', error: msg }`. -/
def errorSnapshot (msg : String) : ProgressSnapshot :=
  ⟨Status.error, none, none, none, some msg⟩

/-- JS exit codes can be `null` (process killed by a signal or never exited
normally); their textual form inside the template literal. -/
def exitCodeText : Option Int → String
  | none => "null"
  | some n => toString n

/-- The message of the error built by the `close` handler:
`new Error(stderr || \x60yt-dlp exited with code ${code}\x60)`.
The accumulated stderr text is used unless it is empty (JS falsiness of
the empty string). -/
def closeErrorMessage (stderrAcc : String) (code : Option Int) : String :=
  if stderrAcc = "" then "yt-dlp exited with code " ++ exitCodeText code
  else stderrAcc

/-- The `close` handler of `runYtDlp`: given the accumulated stderr text,
the exit code and whether `fs.existsSync(outputPath)` holds at exit time,
produce the snapshot written for the job and the settlement of the
returned promise (`Except.ok` for `resolve()`, `Except.error m` for
`reject(new Error(m))`). -/
def onClose (stderrAcc : String) (code : Option Int) (artifactOnDisk : Bool) :
    ProgressSnapshot × Except String Unit :=
  if code = some 0 ∧ artifactOnDisk then
    (completedSnapshot, Except.ok ())
  else
    (errorSnapshot (closeErrorMessage stderrAcc code),
     Except.error (closeErrorMessage stderrAcc code))

/-- The `error` (spawn failure) handler of `runYtDlp`: writes
`{ status: 'error', error: err.message }` and rejects with the same error. -/
def onSpawnError (msg : String) : ProgressSnapshot × Except String Unit :=
  (errorSnapshot msg, Except.error msg)

/-! ### The progress store (`progressMap`) -/

/-- The in-memory progress store, newest write first. -/
abbrev Store := List (String × ProgressSnapshot)

/-- `progressMap.set(id, snap)`. -/
def storeSet (m : Store) (id : String) (snap : ProgressSnapshot) : Store :=
  (id, snap) :: m

/-- `progressMap.get(id)`: the most recent snapshot written for `id`. -/
def storeGet (m : Store) (id : String) : Option ProgressSnapshot :=
  (m.find? (fun e => e.1 == id)).map (fun e => e.2)

/-- The stdout `data` handler of `runYtDlp`, at the store level: if the
chunk is recognized as a progress line, overwrite the job's snapshot with
a `downloading` one; otherwise leave the store untouched. -/
def onStdoutData (m : Store) (id : String) (chunk : String) : Store :=
  match parseLine chunk with
  | some u => storeSet m id (downloadingSnapshot u)
  | none => m

/-- The `GET /download/progress/:id` route: 404 `Unknown download id` when
the store has no entry, otherwise the stored snapshot. -/
def progressRoute (m : Store) (id : String) : Except (Nat × String) ProgressSnapshot :=
  match storeGet m id with
  | none => Except.error (404, "Unknown download id")
  | some p => Except.ok p

/-! ### The per-job event trace of `runYtDlp` -/

/-- Events a spawned child process can deliver to `runYtDlp`'s handlers. -/
inductive PEvent where
  | out (chunk : String)
  | errData (chunk : String)
  | spawnErr (msg : String)
  | close (code : Option Int) (artifactOnDisk : Bool)
  deriving DecidableEq, Repr

/-- Whether an event is terminal (settles the job). -/
def PEvent.isTerminal : PEvent → Bool
  | PEvent.spawnErr _ => true
  | PEvent.close _ _ => true
  | _ => false

/-- The accumulated stderr text after a list of events, starting from
`acc` (the stderr `data` handler only appends). -/
def stderrAfter (acc : String) : List PEvent → String
  | [] => acc
  | PEvent.errData c :: rest => stderrAfter (acc ++ c) rest
  | _ :: rest => stderrAfter acc rest

/-- The snapshots a list of events writes to the job's store entry, given
the stderr text accumulated so far. -/
def eventWrites (acc : String) : List PEvent → List ProgressSnapshot
  | [] => []
  | PEvent.out c :: rest =>
    (match parseLine c with
     | some u => [downloadingSnapshot u]
     | none => []) ++ eventWrites acc rest
  | PEvent.errData c :: rest => eventWrites (acc ++ c) rest
  | PEvent.spawnErr m :: rest => errorSnapshot m :: eventWrites acc rest
  | PEvent.close code ok :: rest =>
    (onClose acc code ok).1 :: eventWrites acc rest

/-- All snapshots ever written for one job: the initial `starting` write
of `runYtDlp` followed by the handlers' writes. -/
def jobWrites (evs : List PEvent) : List ProgressSnapshot :=
  initialSnapshot :: eventWrites "" evs

/-- A well-formed child-process event sequence: a single terminal event
(`close`, or a spawn `error`), delivered after all stream data. -/
def WellFormedEvents (evs : List PEvent) : Prop :=
  ∃ body last, evs = body ++ [last] ∧
    (∀ e ∈ body, e.isTerminal = false) ∧ last.isTerminal = true

/-! ### JS helpers used by the route planners -/

/-- JS truthiness of an optional string field of `req.body`: `undefined`
and the empty string are falsy. -/
def jsTruthy : Option String → Bool
  | none => false
  | some s => s ≠ ""

/-- JS `a || b` for an optional string with a default. -/
def jsOrElse (a : Option String) (b : String) : String :=
  match a with
  | some s => if s = "" then b else s
  | none => b

/-- `quality.replace(/p/i, '')`: remove the first occurrence of `p` or `P`
(no global flag on the regex). -/
def stripFirstP : List Char → List Char
  | [] => []
  | c :: rest => if c = 'p' ∨ c = 'P' then rest else c :: stripFirstP rest

/-- String-level form of `quality.replace(/p/i, '')`. -/
def replaceFirstPi (s : String) : String :=
  String.mk (stripFirstP s.data)

/-- `path.join(a, b)` for the simple components used here. -/
def pathJoin (a b : String) : String :=
  a ++ "/" ++ b

/-! ### The `/download/video` route planner -/

/-- The format filter template literal of the `/download/video` route:
`bestvideo[height<=${quality.replace(/p/i, '')}]+bestaudio/best[ext=${format}]`. -/
def videoFormatFilter (quality format : String) : String :=
  "bestvideo[height<=" ++ replaceFirstPi quality ++ "]+bestaudio/best[ext=" ++
    format ++ "]"

/-- The single-video output path `path.join(DOWNLOAD_DIR, id + '.' + format)`. -/
def videoOutputPath (dir id format : String) : String :=
  pathJoin dir (id ++ "." ++ format)

/-- The optional trim instruction of the `/download/video` route: pushed
exactly when `startTime || endTime` is truthy, as
`['--download-sections', '*' + (startTime || '0') + '-' + (endTime || 'inf')]`. -/
def trimArgs (startTime endTime : Option String) : List String :=
  if jsTruthy startTime || jsTruthy endTime then
    ["--download-sections",
     "*" ++ jsOrElse startTime "0" ++ "-" ++ jsOrElse endTime "inf"]
  else []

/-- The argument list built by the `/download/video` route. -/
def buildVideoArgs (dir id url quality format : String)
    (startTime endTime : Option String) : List String :=
  [url,
   "-f", videoFormatFilter quality format,
   "-o", videoOutputPath dir id format,
   "--no-playlist"] ++ trimArgs startTime endTime

/-! ### The `/download/playlist` route planner -/

/-- The playlist folder `path.join(DOWNLOAD_DIR, id)`, created with
`fs.mkdirSync(folder, { recursive: true })` before the process is spawned. -/
def playlistFolder (dir id : String) : String :=
  pathJoin dir id

/-- The playlist format filter template literal (textually duplicated from
the video route in the source). -/
def playlistFormatFilter (quality format : String) : String :=
  "bestvideo[height<=" ++ replaceFirstPi quality ++ "]+bestaudio/best[ext=" ++
    format ++ "]"

/-- The playlist output template
`path.join(folder, '%(playlist_index)s-%(id)s.%(ext)s')`. -/
def playlistTemplate (dir id : String) : String :=
  pathJoin (playlistFolder dir id) "%(playlist_index)s-%(id)s.%(ext)s"

/-- The argument list built by the `/download/playlist` route. -/
def buildPlaylistArgs (dir id url quality format : String)
    (audioOnly : Bool) : List String :=
  if audioOnly then
    [url, "-x", "--audio-format", format, "-o", playlistTemplate dir id]
  else
    [url,
     "-f", playlistFormatFilter quality format,
     "-o", playlistTemplate dir id]

/-- The `outputPath` argument the playlist route passes to `runYtDlp`:
the folder itself (`runYtDlp(args, folder, id)`). -/
def playlistOutputPath (dir id : String) : String :=
  playlistFolder dir id

/-- A filesystem modelled as the list of existing paths; the playlist route
runs `fs.mkdirSync(folder, ...)` before spawning. -/
def playlistMkdir (dir id : String) (fsPaths : List String) : List String :=
  playlistFolder dir id :: fsPaths

/-- `fs.existsSync(p)` over the modelled filesystem. -/
def existsSync (fsPaths : List String) (p : String) : Bool :=
  fsPaths.contains p

/-! ### The URL validator (runs before any planner) -/

/-- `isValidYouTubeUrl`: the anchored regex
`^(https?:\/\/)?(www\.)?(youtube\.com|youtu\.be)\/` tested against the URL.
Each optional group commits greedily; no committed choice can steal the
start of a later alternative (a string starting with `http` cannot also
start with `www.`, `youtube.com` or `youtu.be`, and so on), so the
straight-line reading below is the regex's backtracking semantics. -/
def isValidYouTubeUrl (url : String) : Bool :=
  let l0 := url.data
  let l1 := if "https://".data.isPrefixOf l0 then l0.drop 8
            else if "http://".data.isPrefixOf l0 then l0.drop 7
            else l0
  let l2 := if "www.".data.isPrefixOf l1 then l1.drop 4 else l1
  "youtube.com/".data.isPrefixOf l2 || "youtu.be/".data.isPrefixOf l2

/-! ### Auxiliary definitions used only in theorem statements -/

/-- The corrected percent-field invariant of every stored snapshot (see the
C4 theorems): percent is present and `0` in `starting` snapshots, present
and nonnegative in `downloading` snapshots, present and `100` in
`completed` snapshots, and absent in `error` snapshots. -/
def PercentInv (snap : ProgressSnapshot) : Prop :=
  (∀ q, snap.percent = some q → 0 ≤ q) ∧
  (snap.status = Status.starting → snap.percent = some 0) ∧
  (snap.status = Status.downloading → snap.percent ≠ none) ∧
  (snap.status = Status.completed → snap.percent = some 100) ∧
  (snap.status = Status.error → snap.percent = none)

/-- The store after a chronological list of `progressMap.set` calls. -/
def buildStore (writes : List (String × ProgressSnapshot)) : Store :=
  writes.foldl (fun m w => storeSet m w.1 w.2) []

/-- The chronologically last snapshot written for `id` in a write list. -/
def lastWrite : List (String × ProgressSnapshot) → String → Option ProgressSnapshot
  | [], _ => none
  | w :: rest, id =>
    match lastWrite rest id with
    | some s => some s
    | none => if w.1 = id then some w.2 else none

/-! ### Lemmas about the progress-line recognizer -/

theorem dropLit_suffix (p : List Char) :
    ∀ {l r : List Char}, dropLit p l = some r → r <:+ l := by
  induction p with
  | nil =>
    intro l r h
    simp only [dropLit, Option.some.injEq] at h
    exact h ▸ List.suffix_refl l
  | cons p ps ih =>
    intro l r h
    cases l with
    | nil => simp [dropLit] at h
    | cons c cs =>
      simp only [dropLit] at h
      split at h
      · exact (ih h).trans (List.suffix_cons c cs)
      · exact absurd h (by simp)

theorem span1_suffix {p : Char → Bool} {l t r : List Char}
    (h : span1 p l = some (t, r)) : r <:+ l := by
  simp only [span1] at h
  split at h
  · exact absurd h (by simp)
  · simp only [Option.some.injEq, Prod.mk.injEq] at h
    exact h.2 ▸ List.dropWhile_suffix p

theorem dropOneSpace_suffix : ∀ {l r : List Char},
    dropOneSpace l = some r → r <:+ l := by
  intro l r h
  cases l with
  | nil => simp [dropOneSpace] at h
  | cons c cs =>
    simp only [dropOneSpace] at h
    split at h
    · simp only [Option.some.injEq] at h
      exact h ▸ List.suffix_cons c cs
    · exact absurd h (by simp)

/-- A successful anchored match consumed a literal percent sign. -/
theorem percent_mem_of_matchAt {l : List Char}
    {caps : List Char × List Char × List Char × List Char}
    (h : matchAt l = some caps) : '%' ∈ l := by
  simp only [matchAt, bind, Option.bind_eq_some] at h
  obtain ⟨r1, h1, h⟩ := h
  obtain ⟨⟨s0, r2⟩, h2, h⟩ := h
  obtain ⟨⟨d1, r3⟩, h3, h⟩ := h
  obtain ⟨r4, h4, h⟩ := h
  obtain ⟨⟨d2, r5⟩, h5, h⟩ := h
  obtain ⟨r6, h6, -⟩ := h
  have hmem : '%' ∈ r5 := by
    cases r5 with
    | nil => simp [dropLit] at h6
    | cons c cs =>
      simp only [dropLit] at h6
      split at h6
      · rename_i hc
        simp [hc]
      · exact absurd h6 (by simp)
  have hsuf : r5 <:+ l :=
    (((span1_suffix h5).trans (dropLit_suffix _ h4)).trans
      (span1_suffix h3)).trans ((span1_suffix h2).trans (dropLit_suffix _ h1))
  exact hsuf.subset hmem

/-- A successful search still meant a percent sign somewhere in the input. -/
theorem percent_mem_of_searchMatch :
    ∀ {l : List Char} {caps : List Char × List Char × List Char × List Char},
    searchMatch l = some caps → '%' ∈ l := by
  intro l
  induction l with
  | nil => intro caps h; simp [searchMatch] at h
  | cons c cs ih =>
    intro caps h
    simp only [searchMatch] at h
    split at h
    · rename_i hm
      exact percent_mem_of_matchAt (hm.trans h)
    · exact List.mem_cons_of_mem c (ih h)

/-- C2: the output line parser maps
`"[download]  12.3% of 10.00MiB at 1.23MiB/s ETA 00:10"` to an update with
percent 12.3, speed `1.23MiB/s`, eta `00:10`, which the stdout handler
stores with status `downloading`; a line with no `%` character yields no
update; and a chunk the regex does not recognize leaves the store
untouched (ignored, not an error). -/
theorem claimC2_line_parsing :
    parseLine "[download]  12.3% of 10.00MiB at 1.23MiB/s ETA 00:10" =
      some ⟨(123 : ℚ) / 10, "1.23MiB/s", "00:10"⟩ ∧
    downloadingSnapshot ⟨(123 : ℚ) / 10, "1.23MiB/s", "00:10"⟩ =
      ⟨Status.downloading, some ((123 : ℚ) / 10), some "1.23MiB/s",
        some "00:10", none⟩ ∧
    (∀ line : String, '%' ∉ line.data → parseLine line = none) ∧
    (∀ (m : Store) (id line : String),
      parseLine line = none → onStdoutData m id line = m) := by
  refine ⟨?_, rfl, ?_, ?_⟩
  · have h : searchMatch
        ("[download]  12.3% of 10.00MiB at 1.23MiB/s ETA 00:10").data =
        some ("12".data, "3".data, "1.23MiB/s".data, "00:10".data) := by decide
    simp [parseLine, h, ratOfParts, natOfDigits]
    norm_num
  · intro line hl
    unfold parseLine
    cases hs : searchMatch line.data with
    | none => rfl
    | some caps => exact absurd (percent_mem_of_searchMatch hs) hl
  · intro m id line hp
    simp [onStdoutData, hp]

/-- Witness for C2 at concrete inputs: a yt-dlp merge notification line has
no percent sign, is not recognized, and leaves the store unchanged. -/
theorem claimC2_line_parsing_witness :
    parseLine "[Merger] Merging formats into out.mp4" = none ∧
    onStdoutData [] "job1" "[Merger] Merging formats into out.mp4" = [] := by
  refine ⟨claimC2_line_parsing.2.2.1 _ (by decide), ?_⟩
  exact claimC2_line_parsing.2.2.2 [] "job1" _
    (claimC2_line_parsing.2.2.1 _ (by decide))

/-- C1: on process exit, exit code `0` together with the expected artifact
present on disk yields the `completed` snapshot (percent forced to 100)
and resolves the completion promise; any other combination — including
exit code `0` with the artifact absent — yields an `error` snapshot whose
message is the accumulated stderr text, or the generic
`yt-dlp exited with code N` text when stderr is empty, and rejects the
promise with that same message. -/
theorem claimC1_close_transition (stderrAcc : String) (code : Option Int)
    (onDisk : Bool) :
    (code = some 0 ∧ onDisk = true →
      onClose stderrAcc code onDisk = (completedSnapshot, Except.ok ()) ∧
      completedSnapshot.status = Status.completed ∧
      completedSnapshot.percent = some 100) ∧
    (¬(code = some 0 ∧ onDisk = true) →
      (onClose stderrAcc code onDisk).1.status = Status.error ∧
      (onClose stderrAcc code onDisk).1.errorMessage =
        some (closeErrorMessage stderrAcc code) ∧
      (onClose stderrAcc code onDisk).2 =
        Except.error (closeErrorMessage stderrAcc code) ∧
      (stderrAcc ≠ "" → closeErrorMessage stderrAcc code = stderrAcc) ∧
      (stderrAcc = "" → closeErrorMessage stderrAcc code =
        "yt-dlp exited with code " ++ exitCodeText code)) := by
  constructor
  · intro h
    rw [onClose, if_pos ⟨h.1, h.2⟩]
    exact ⟨rfl, rfl, rfl⟩
  · intro h
    rw [onClose, if_neg h]
    refine ⟨rfl, rfl, rfl, fun hne => ?_, fun he => ?_⟩
    · simp [closeErrorMessage, hne]
    · simp [closeErrorMessage, he]

/-- Witness for C1: success case at exit code 0 with the artifact present;
error case at exit code 0 with the artifact absent. -/
theorem claimC1_close_transition_witness :
    onClose "" (some 0) true = (completedSnapshot, Except.ok ()) ∧
    (onClose "" (some 0) false).1.status = Status.error ∧
    (onClose "" (some 0) false).1.errorMessage =
      some "yt-dlp exited with code 0" := by
  refine ⟨((claimC1_close_transition "" (some 0) true).1 ⟨rfl, rfl⟩).1, ?_, ?_⟩
  · exact ((claimC1_close_transition "" (some 0) false).2 (by simp)).1
  · have h := (claimC1_close_transition "" (some 0) false).2 (by simp)
    rw [h.2.1, h.2.2.2.2 rfl]
    rfl

/-- C9: on a process launch failure the job's snapshot goes directly to
`error` carrying the launch error's message, and the completion promise is
rejected with the very same error, so the store and the orchestration call
agree on the failure. -/
theorem claimC9_spawn_error (msg : String) :
    (onSpawnError msg).1.status = Status.error ∧
    (onSpawnError msg).1.errorMessage = some msg ∧
    (onSpawnError msg).2 = Except.error msg :=
  ⟨rfl, rfl, rfl⟩

/-! ### Lemmas about the per-job write trace -/

theorem eventWrites_append (a b : List PEvent) :
    ∀ acc, eventWrites acc (a ++ b) =
      eventWrites acc a ++ eventWrites (stderrAfter acc a) b := by
  induction a with
  | nil => intro acc; simp [eventWrites, stderrAfter]
  | cons e rest ih =>
    intro acc
    cases e with
    | out c => simp [eventWrites, stderrAfter, ih]
    | errData c => simp [eventWrites, stderrAfter, ih]
    | spawnErr m => simp [eventWrites, stderrAfter, ih]
    | close code ok => simp [eventWrites, stderrAfter, ih]

/-- Non-terminal events write only `downloading` snapshots. -/
theorem eventWrites_nonterminal_statuses (body : List PEvent) :
    ∀ acc, (∀ e ∈ body, e.isTerminal = false) →
      ∃ k, (eventWrites acc body).map ProgressSnapshot.status =
        List.replicate k Status.downloading := by
  induction body with
  | nil => exact fun acc _ => ⟨0, rfl⟩
  | cons e rest ih =>
    intro acc hb
    have hrest := fun e he => hb e (List.mem_cons_of_mem _ he)
    cases e with
    | out c =>
      obtain ⟨k, hk⟩ := ih acc hrest
      cases hp : parseLine c with
      | none => exact ⟨k, by simp [eventWrites, hp, hk]⟩
      | some u =>
        exact ⟨k + 1, by
          simp [eventWrites, hp, hk, downloadingSnapshot, List.replicate]⟩
    | errData c =>
      obtain ⟨k, hk⟩ := ih (acc ++ c) hrest
      exact ⟨k, by simp [eventWrites, hk]⟩
    | spawnErr m =>
      exact absurd (hb _ (List.mem_cons_self _ _)) (by simp [PEvent.isTerminal])
    | close code ok =>
      exact absurd (hb _ (List.mem_cons_self _ _)) (by simp [PEvent.isTerminal])

/-- A terminal event writes exactly one snapshot, and its status is
`completed` or `error`. -/
theorem terminal_write_status (acc : String) (e : PEvent)
    (he : e.isTerminal = true) :
    ∃ t, (eventWrites acc [e]).map ProgressSnapshot.status = [t] ∧
      (t = Status.completed ∨ t = Status.error) := by
  cases e with
  | out c => simp [PEvent.isTerminal] at he
  | errData c => simp [PEvent.isTerminal] at he
  | spawnErr m => exact ⟨Status.error, by simp [eventWrites, errorSnapshot], Or.inr rfl⟩
  | close code ok =>
    refine ⟨(onClose acc code ok).1.status, by simp [eventWrites], ?_⟩
    rw [onClose]
    split
    · exact Or.inl rfl
    · exact Or.inr rfl

/-- C3: for any well-formed child-process event sequence, the statuses
written to the job's store entry are exactly `starting`, then zero or more
`downloading`, then a single terminal `completed` or `error` status; in
particular nothing is written after the terminal status. -/
theorem claimC3_status_trace (evs : List PEvent) (h : WellFormedEvents evs) :
    ∃ k t, (jobWrites evs).map ProgressSnapshot.status =
      Status.starting :: (List.replicate k Status.downloading ++ [t]) ∧
      (t = Status.completed ∨ t = Status.error) := by
  obtain ⟨body, last, rfl, hb, hl⟩ := h
  obtain ⟨k, hk⟩ := eventWrites_nonterminal_statuses body "" hb
  obtain ⟨t, ht, htc⟩ := terminal_write_status (stderrAfter "" body) last hl
  refine ⟨k, t, ?_, htc⟩
  simp [jobWrites, eventWrites_append, hk, ht, initialSnapshot]

/-- Witness for C3: a run with one recognized progress line and a
successful exit. -/
theorem claimC3_status_trace_witness :
    WellFormedEvents
      [PEvent.out "[download]  12.3% of 10.00MiB at 1.23MiB/s ETA 00:10",
       PEvent.close (some 0) true] ∧
    ∃ k t,
      (jobWrites
        [PEvent.out "[download]  12.3% of 10.00MiB at 1.23MiB/s ETA 00:10",
         PEvent.close (some 0) true]).map ProgressSnapshot.status =
        Status.starting :: (List.replicate k Status.downloading ++ [t]) ∧
      (t = Status.completed ∨ t = Status.error) := by
  have hw : WellFormedEvents
      [PEvent.out "[download]  12.3% of 10.00MiB at 1.23MiB/s ETA 00:10",
       PEvent.close (some 0) true] := by
    refine ⟨[PEvent.out "[download]  12.3% of 10.00MiB at 1.23MiB/s ETA 00:10"],
      PEvent.close (some 0) true, rfl, ?_, rfl⟩
    intro e he
    rw [List.mem_singleton] at he
    subst he
    rfl
  exact ⟨hw, claimC3_status_trace _ hw⟩

/-! ### The percent-field invariant (C4) -/

/-- A recognized line always carries a nonnegative percent value (the
capture is a plain decimal numeral). -/
theorem parseLine_percent_nonneg {line : String} {u : ProgressUpdate}
    (h : parseLine line = some u) : 0 ≤ u.percent := by
  unfold parseLine at h
  cases hs : searchMatch line.data with
  | none => rw [hs] at h; exact absurd h (by simp)
  | some caps =>
    obtain ⟨d1, d2, sp, eta⟩ := caps
    rw [hs] at h
    simp only [Option.some.injEq] at h
    rw [← h]
    show (0 : ℚ) ≤ ratOfParts d1 d2
    unfold ratOfParts
    positivity

theorem percentInv_initial : PercentInv initialSnapshot := by
  refine ⟨?_, ?_, ?_, ?_, ?_⟩ <;> simp [initialSnapshot]

theorem percentInv_error (msg : String) : PercentInv (errorSnapshot msg) := by
  refine ⟨?_, ?_, ?_, ?_, ?_⟩ <;> simp [errorSnapshot]

theorem percentInv_completed : PercentInv completedSnapshot := by
  refine ⟨?_, ?_, ?_, ?_, ?_⟩ <;> simp [completedSnapshot]

theorem percentInv_downloading (u : ProgressUpdate) (h : 0 ≤ u.percent) :
    PercentInv (downloadingSnapshot u) := by
  refine ⟨?_, ?_, ?_, ?_, ?_⟩ <;> simp [downloadingSnapshot]
  exact h

theorem percentInv_onClose (acc : String) (code : Option Int) (ok : Bool) :
    PercentInv (onClose acc code ok).1 := by
  rw [onClose]
  split
  · exact percentInv_completed
  · exact percentInv_error _

theorem percentInv_eventWrites (evs : List PEvent) :
    ∀ acc snap, snap ∈ eventWrites acc evs → PercentInv snap := by
  induction evs with
  | nil => intro acc snap h; simp [eventWrites] at h
  | cons e rest ih =>
    intro acc snap h
    cases e with
    | out c =>
      cases hp : parseLine c with
      | none =>
        rw [eventWrites, hp] at h
        exact ih acc snap h
      | some u =>
        rw [eventWrites, hp] at h
        rcases List.mem_append.mp h with h' | h'
        · rw [List.mem_singleton] at h'
          exact h' ▸ percentInv_downloading u (parseLine_percent_nonneg hp)
        · exact ih acc snap h'
    | errData c =>
      rw [eventWrites] at h
      exact ih _ snap h
    | spawnErr m =>
      rw [eventWrites] at h
      rcases List.mem_cons.mp h with h' | h'
      · exact h' ▸ percentInv_error m
      · exact ih acc snap h'
    | close code ok =>
      rw [eventWrites] at h
      rcases List.mem_cons.mp h with h' | h'
      · exact h' ▸ percentInv_onClose acc code ok
      · exact ih acc snap h'

/-- C4 (amended): in every snapshot ever stored for a job, the percent
field is nonnegative whenever present; it is present with value `0` in the
`starting` snapshot, present in every `downloading` snapshot, present with
value `100` in the `completed` snapshot, and absent in `error` snapshots.
(The original claim — percent absent while `starting` and never above
`100` — fails: see the counterexample.) -/
theorem claimC4_percent_fields (evs : List PEvent) (snap : ProgressSnapshot)
    (h : snap ∈ jobWrites evs) :
    (∀ q, snap.percent = some q → 0 ≤ q) ∧
    (snap.status = Status.starting → snap.percent = some 0) ∧
    (snap.status = Status.downloading → snap.percent ≠ none) ∧
    (snap.status = Status.completed → snap.percent = some 100) ∧
    (snap.status = Status.error → snap.percent = none) := by
  rcases List.mem_cons.mp h with h' | h'
  · exact h' ▸ percentInv_initial
  · exact percentInv_eventWrites evs "" snap h'

/-- Witness for the amended C4 at a concrete run. -/
theorem claimC4_percent_fields_witness :
    initialSnapshot.percent = some 0 ∧
    (initialSnapshot.status = Status.error → initialSnapshot.percent = none) := by
  have h := claimC4_percent_fields [] initialSnapshot (by simp [jobWrites])
  exact ⟨h.2.1 rfl, h.2.2.2.2⟩

/-- C4 counterexample: the claim as stated is false on the code. The very
first stored snapshot has status `starting` and a present percent field
(value 0), and a recognized line `250.0%` stores a `downloading` snapshot
whose percent exceeds 100. -/
theorem claimC4_counterexample :
    initialSnapshot ∈ jobWrites [] ∧
    initialSnapshot.status = Status.starting ∧
    initialSnapshot.percent = some 0 ∧
    parseLine "[download] 250.0% of clip at 1.0MiB/s ETA 00:01" =
      some ⟨(250 : ℚ), "1.0MiB/s", "00:01"⟩ ∧
    downloadingSnapshot ⟨(250 : ℚ), "1.0MiB/s", "00:01"⟩ ∈
      jobWrites
        [PEvent.out "[download] 250.0% of clip at 1.0MiB/s ETA 00:01",
         PEvent.close (some 0) true] ∧
    (downloadingSnapshot ⟨(250 : ℚ), "1.0MiB/s", "00:01"⟩).percent =
      some 250 ∧
    ¬((250 : ℚ) ≤ 100) := by
  have hparse : parseLine "[download] 250.0% of clip at 1.0MiB/s ETA 00:01" =
      some ⟨(250 : ℚ), "1.0MiB/s", "00:01"⟩ := by
    have h : searchMatch
        ("[download] 250.0% of clip at 1.0MiB/s ETA 00:01").data =
        some ("250".data, "0".data, "1.0MiB/s".data, "00:01".data) := by decide
    simp [parseLine, h, ratOfParts, natOfDigits]
  refine ⟨?_, rfl, rfl, hparse, ?_, rfl, ?_⟩
  · simp [jobWrites, eventWrites]
  · simp [jobWrites, eventWrites, hparse]
  · norm_num

/-! ### The progress store and its query route (C10) -/

theorem storeGet_foldl (ws : List (String × ProgressSnapshot)) :
    ∀ (m : Store) (id : String),
      storeGet (ws.foldl (fun m w => storeSet m w.1 w.2) m) id =
        match lastWrite ws id with
        | some s => some s
        | none => storeGet m id := by
  induction ws with
  | nil => intro m id; simp [lastWrite]
  | cons w rest ih =>
    intro m id
    rw [List.foldl_cons, ih]
    cases hrest : lastWrite rest id with
    | some s => simp [lastWrite, hrest]
    | none =>
      simp only [lastWrite, hrest]
      by_cases hw : w.1 = id
      · subst hw
        simp [storeGet, storeSet, List.find?_cons]
      · simp [storeGet, storeSet, List.find?_cons, hw]

theorem lastWrite_eq_none (ws : List (String × ProgressSnapshot)) (id : String)
    (h : ∀ w ∈ ws, w.1 ≠ id) : lastWrite ws id = none := by
  induction ws with
  | nil => rfl
  | cons w rest ih =>
    rw [lastWrite, ih (fun e he => h e (List.mem_cons_of_mem _ he))]
    simp [h w (List.mem_cons_self _ _)]

/-- C10: querying progress for an id never written to the store answers
404 `Unknown download id`; querying for a written id answers the
chronologically last snapshot stored for it. -/
theorem claimC10_progress_query (ws : List (String × ProgressSnapshot))
    (id : String) :
    ((∀ w ∈ ws, w.1 ≠ id) →
      progressRoute (buildStore ws) id =
        Except.error (404, "Unknown download id")) ∧
    (∀ snap, lastWrite ws id = some snap →
      progressRoute (buildStore ws) id = Except.ok snap) := by
  have hg := storeGet_foldl ws [] id
  constructor
  · intro h
    rw [lastWrite_eq_none ws id h] at hg
    simp only [progressRoute, buildStore, hg]
    rfl
  · intro snap h
    rw [h] at hg
    simp only [progressRoute, buildStore, hg]

/-- Witness for C10: an unknown id against a one-entry store, and a known
id whose entry was overwritten once. -/
theorem claimC10_progress_query_witness :
    progressRoute (buildStore [("a", initialSnapshot)]) "b" =
      Except.error (404, "Unknown download id") ∧
    progressRoute
      (buildStore [("a", initialSnapshot), ("a", completedSnapshot)]) "a" =
      Except.ok completedSnapshot := by
  constructor
  · refine (claimC10_progress_query [("a", initialSnapshot)] "b").1 ?_
    intro w hw
    rw [List.mem_singleton] at hw
    subst hw
    decide
  · refine (claimC10_progress_query
      [("a", initialSnapshot), ("a", completedSnapshot)] "a").2
      completedSnapshot ?_
    rfl

/-! ### The playlist folder and the exit-time existence check (C5) -/

/-- C5: the playlist route creates the job's output directory before
spawning, passes that directory itself to `runYtDlp` as the expected
output artifact, and therefore the exit-time existence check succeeds no
matter what the process wrote (`extra` — in particular nothing at all), so
exit code 0 always yields `completed` for a playlist job. -/
theorem claimC5_playlist_completion (dir id stderrAcc : String)
    (fsPaths extra : List String) (code : Option Int) (h : code = some 0) :
    playlistOutputPath dir id = playlistFolder dir id ∧
    existsSync (playlistMkdir dir id fsPaths) (playlistFolder dir id) = true ∧
    onClose stderrAcc code
      (existsSync (extra ++ playlistMkdir dir id fsPaths)
        (playlistFolder dir id)) =
      (completedSnapshot, Except.ok ()) := by
  refine ⟨rfl, ?_, ?_⟩
  · exact List.elem_iff.mpr (List.mem_cons_self _ _)
  · have hex : existsSync (extra ++ playlistMkdir dir id fsPaths)
        (playlistFolder dir id) = true :=
      List.elem_iff.mpr (List.mem_append_right _ (List.mem_cons_self _ _))
    rw [onClose, if_pos ⟨h, hex⟩]

/-- Witness for C5: a playlist job whose process produced no files at all
still completes on exit code 0. -/
theorem claimC5_playlist_completion_witness :
    onClose "" (some 0)
      (existsSync ([] ++ playlistMkdir "downloads" "job1" [])
        (playlistFolder "downloads" "job1")) =
      (completedSnapshot, Except.ok ()) :=
  (claimC5_playlist_completion "downloads" "job1" "" [] [] (some 0) rfl).2.2

/-! ### The quality string and the video-route argument list (C6, C7) -/

theorem stripFirstP_append_p (l : List Char)
    (hl : ∀ c ∈ l, c ≠ 'p' ∧ c ≠ 'P') :
    stripFirstP (l ++ ['p']) = l := by
  induction l with
  | nil => simp [stripFirstP]
  | cons c rest ih =>
    have hc := hl c (List.mem_cons_self _ _)
    rw [List.cons_append, stripFirstP]
    simp only [hc.1, hc.2, or_self, if_false]
    rw [ih (fun e he => hl e (List.mem_cons_of_mem _ he))]

/-- `"Np".replace(/p/i, '')` is `"N"` when `N` contains no `p` or `P`. -/
theorem replaceFirstPi_quality (qd : String)
    (h : ∀ c ∈ qd.data, c ≠ 'p' ∧ c ≠ 'P') :
    replaceFirstPi (qd ++ "p") = qd := by
  rw [replaceFirstPi, String.data_append]
  show String.mk (stripFirstP (qd.data ++ ['p'])) = qd
  rw [stripFirstP_append_p qd.data h]

/-- C6: for a single-video request with quality `Np` and container format
`F`, the planned argument list contains the adjacent pair `-f`
`bestvideo[height<=N]+bestaudio/best[ext=F]` — best video at or below
height `N` merged with best audio, constrained to container `F` — and
contains `--no-playlist`, the playlist-expansion kill switch, whatever the
URL is. -/
theorem claimC6_video_format_args (dir id url format qd : String)
    (st et : Option String) (hq : ∀ c ∈ qd.data, c ≠ 'p' ∧ c ≠ 'P') :
    (∃ pre post, buildVideoArgs dir id url (qd ++ "p") format st et =
      pre ++
      ["-f", "bestvideo[height<=" ++ qd ++ "]+bestaudio/best[ext=" ++
        format ++ "]"] ++ post) ∧
    "--no-playlist" ∈ buildVideoArgs dir id url (qd ++ "p") format st et := by
  have hf : videoFormatFilter (qd ++ "p") format =
      "bestvideo[height<=" ++ qd ++ "]+bestaudio/best[ext=" ++ format ++ "]" := by
    rw [videoFormatFilter, replaceFirstPi_quality qd hq]
  constructor
  · refine ⟨[url],
      ["-o", videoOutputPath dir id format, "--no-playlist"] ++ trimArgs st et, ?_⟩
    rw [buildVideoArgs, hf]
    simp
  · rw [buildVideoArgs]
    simp

/-- Witness for C6 at quality `720p`, format `mp4`. -/
theorem claimC6_video_format_args_witness :
    (∃ pre post,
      buildVideoArgs "downloads" "job1" "https://youtu.be/x" ("720" ++ "p")
        "mp4" none none =
      pre ++
      ["-f", "bestvideo[height<=" ++ "720" ++ "]+bestaudio/best[ext=" ++
        "mp4" ++ "]"] ++ post) ∧
    "--no-playlist" ∈
      buildVideoArgs "downloads" "job1" "https://youtu.be/x" ("720" ++ "p")
        "mp4" none none :=
  claimC6_video_format_args "downloads" "job1" "https://youtu.be/x" "mp4"
    "720" none none (by decide)

/-- C7: the planned single-video argument list ends with the two tokens
`--download-sections` `*start-end` exactly when a (truthy) start or end
time is supplied; an omitted start defaults to `0` and an omitted end to
`inf` (unbounded); with neither supplied the list is exactly the base list
with nothing appended. -/
theorem claimC7_trim_section (dir id url quality format : String)
    (st et : Option String) :
    ((jsTruthy st || jsTruthy et) = true →
      buildVideoArgs dir id url quality format st et =
        [url, "-f", videoFormatFilter quality format,
         "-o", videoOutputPath dir id format, "--no-playlist"] ++
        ["--download-sections",
         "*" ++ jsOrElse st "0" ++ "-" ++ jsOrElse et "inf"]) ∧
    ((jsTruthy st || jsTruthy et) = false →
      buildVideoArgs dir id url quality format st et =
        [url, "-f", videoFormatFilter quality format,
         "-o", videoOutputPath dir id format, "--no-playlist"]) ∧
    jsOrElse (none : Option String) "0" = "0" ∧
    jsOrElse (none : Option String) "inf" = "inf" ∧
    (st = none → jsTruthy st = false) ∧
    (et = none → jsTruthy et = false) := by
  refine ⟨?_, ?_, rfl, rfl, ?_, ?_⟩
  · intro h
    rw [buildVideoArgs, trimArgs, if_pos h]
  · intro h
    rw [buildVideoArgs, trimArgs, if_neg (by simp [h])]
    simp
  · intro h; rw [h]; rfl
  · intro h; rw [h]; rfl

/-- Witness for C7: a supplied start time with an omitted end time ends
the list with `*00:30-inf`; neither supplied appends nothing. -/
theorem claimC7_trim_section_witness :
    buildVideoArgs "downloads" "job1" "https://youtu.be/x" "720p" "mp4"
      (some "00:30") none =
      ["https://youtu.be/x", "-f", videoFormatFilter "720p" "mp4",
       "-o", videoOutputPath "downloads" "job1" "mp4", "--no-playlist"] ++
      ["--download-sections",
       "*" ++ jsOrElse (some "00:30") "0" ++ "-" ++ jsOrElse none "inf"] ∧
    buildVideoArgs "downloads" "job1" "https://youtu.be/x" "720p" "mp4"
      none none =
      ["https://youtu.be/x", "-f", videoFormatFilter "720p" "mp4",
       "-o", videoOutputPath "downloads" "job1" "mp4", "--no-playlist"] := by
  constructor
  · exact (claimC7_trim_section "downloads" "job1" "https://youtu.be/x"
      "720p" "mp4" (some "00:30") none).1 (by decide)
  · exact (claimC7_trim_section "downloads" "job1" "https://youtu.be/x"
      "720p" "mp4" none none).2.1 rfl

/-! ### The playlist planner's two modes (C8) -/

/-- Any URL accepted by the validator starts with `h`, `w` or `y`. -/
theorem validUrl_head (url : String) (h : isValidYouTubeUrl url = true) :
    url.data.head? = some 'h' ∨ url.data.head? = some 'w' ∨
      url.data.head? = some 'y' := by
  simp only [isValidYouTubeUrl, Bool.or_eq_true] at h
  by_cases h1 : "https://".data.isPrefixOf url.data = true
  · obtain ⟨t, ht⟩ := List.isPrefixOf_iff_prefix.mp h1
    exact Or.inl (by rw [← ht]; rfl)
  · by_cases h2 : "http://".data.isPrefixOf url.data = true
    · obtain ⟨t, ht⟩ := List.isPrefixOf_iff_prefix.mp h2
      exact Or.inl (by rw [← ht]; rfl)
    · rw [if_neg h1, if_neg h2] at h
      by_cases h3 : "www.".data.isPrefixOf url.data = true
      · obtain ⟨t, ht⟩ := List.isPrefixOf_iff_prefix.mp h3
        exact Or.inr (Or.inl (by rw [← ht]; rfl))
      · rw [if_neg h3] at h
        rcases h with h | h
        · obtain ⟨t, ht⟩ := List.isPrefixOf_iff_prefix.mp h
          exact Or.inr (Or.inr (by rw [← ht]; rfl))
        · obtain ⟨t, ht⟩ := List.isPrefixOf_iff_prefix.mp h
          exact Or.inr (Or.inr (by rw [← ht]; rfl))

/-- C8: planning a playlist job in audio-only mode yields an argument list
that nowhere contains the video-quality filter token; video mode yields
exactly the single-video filter (same quality and format) behind `-f`; and
in both modes the output template lives inside the directory named after
the job id, naming items by playlist position and item id with the
extension of the final container. -/
theorem claimC8_playlist_planner (dir id url format qd : String)
    (hurl : isValidYouTubeUrl url = true)
    (hq : ∀ c ∈ qd.data, c ≠ 'p' ∧ c ≠ 'P') :
    playlistFormatFilter (qd ++ "p") format ∉
      buildPlaylistArgs dir id url (qd ++ "p") format true ∧
    buildPlaylistArgs dir id url (qd ++ "p") format false =
      [url, "-f", videoFormatFilter (qd ++ "p") format,
       "-o", playlistTemplate dir id] ∧
    playlistFormatFilter (qd ++ "p") format =
      videoFormatFilter (qd ++ "p") format ∧
    playlistTemplate dir id =
      playlistFolder dir id ++ "/" ++ "%(playlist_index)s-%(id)s.%(ext)s" := by
  have hf : playlistFormatFilter (qd ++ "p") format =
      "bestvideo[height<=" ++ qd ++ "]+bestaudio/best[ext=" ++ format ++ "]" := by
    rw [playlistFormatFilter, replaceFirstPi_quality qd hq]
  have hhead : (playlistFormatFilter (qd ++ "p") format).data.head? =
      some 'b' := by
    rw [hf]; rfl
  have hlen : (playlistFormatFilter (qd ++ "p") format).length =
      40 + qd.length + format.length := by
    have e1 : ("bestvideo[height<=" : String).length = 18 := rfl
    have e2 : ("]+bestaudio/best[ext=" : String).length = 21 := rfl
    have e3 : ("]" : String).length = 1 := rfl
    rw [hf, String.length_append, String.length_append, String.length_append,
      String.length_append, e1, e2, e3]
    omega
  have hlast : (playlistFormatFilter (qd ++ "p") format).data.getLast? =
      some ']' := by
    rw [hf, String.data_append, List.getLast?_append]; rfl
  have htl : (playlistTemplate dir id).data.getLast? = some 's' := by
    rw [playlistTemplate, pathJoin, String.data_append, List.getLast?_append]
    rfl
  refine ⟨?_, rfl, rfl, rfl⟩
  intro hmem
  simp only [buildPlaylistArgs, if_true, List.mem_cons, List.not_mem_nil,
    or_false] at hmem
  rcases hmem with h | h | h | h | h | h
  · rw [h] at hhead
    rcases validUrl_head url hurl with hu | hu | hu <;> rw [hu] at hhead <;>
      simp at hhead
  · have hc := congrArg String.length h
    rw [hlen] at hc
    have e : ("-x" : String).length = 2 := rfl
    rw [e] at hc
    omega
  · have hc := congrArg String.length h
    rw [hlen] at hc
    have e : ("--audio-format" : String).length = 14 := rfl
    rw [e] at hc
    omega
  · have hc := congrArg String.length h
    rw [hlen] at hc
    omega
  · have hc := congrArg String.length h
    rw [hlen] at hc
    have e : ("-o" : String).length = 2 := rfl
    rw [e] at hc
    omega
  · rw [h, htl] at hlast
    simp at hlast

/-- Witness for C8 at quality `720p`, format `mp3`, a validator-accepted
playlist URL and an arbitrary job directory. -/
theorem claimC8_playlist_planner_witness :
    playlistFormatFilter ("720" ++ "p") "mp3" ∉
      buildPlaylistArgs "downloads" "job1"
        "https://www.youtube.com/playlist?list=PL1" ("720" ++ "p") "mp3"
        true ∧
    buildPlaylistArgs "downloads" "job1"
      "https://www.youtube.com/playlist?list=PL1" ("720" ++ "p") "mp3"
      false =
      ["https://www.youtube.com/playlist?list=PL1", "-f",
       videoFormatFilter ("720" ++ "p") "mp3",
       "-o", playlistTemplate "downloads" "job1"] ∧
    playlistFormatFilter ("720" ++ "p") "mp3" =
      videoFormatFilter ("720" ++ "p") "mp3" ∧
    playlistTemplate "downloads" "job1" =
      playlistFolder "downloads" "job1" ++ "/" ++
        "%(playlist_index)s-%(id)s.%(ext)s" :=
  claimC8_playlist_planner "downloads" "job1"
    "https://www.youtube.com/playlist?list=PL1" "mp3" "720" (by decide)
    (by decide)

end YtDl
